import Mathlib

/-
  Verification development for the directory-watching-and-mirroring core of
  `watch_and_upload.py` (class `FileUploadHandler` and the watch-control part
  of class `SyncApp`).

  Modelling conventions:
  * A filesystem path is a list of segments (`Path`); the platform separator
    `os.sep` is abstracted to `"/"`.  Segments are assumed not to contain the
    separator, so splitting the joined relative path on `"/"` recovers the
    segment list.
  * `fnmatch` is a model of Python's `fnmatch.fnmatch` (shell-glob matching
    with `*`, `?` and `[...]`, where `*` also matches the separator because
    `fnmatch` treats it as an ordinary character).  It is written with an
    explicit fuel argument so that it is structurally recursive and
    kernel-computable; the fuel `pattern.length + name.length + 1` is enough
    because every step consumes at least one character of pattern or input.
  * The filesystem is a state `FS` mapping paths to files and recording which
    directories exist; I/O failures of the copy are injected through an
    `Option String` oracle standing for the exception raised inside the
    `try` block of `copy_to_wsl`.
  * Logging calls are modelled by a `LogEvent` emitted in the function result,
    one constructor per `logging.info` / `logging.error` call site.
-/

namespace WatchAndUpload

/-- Membership test of a character in a glob bracket set, with `a-b` ranges
(compared by code point, as in the regex Python's `fnmatch.translate`
produces); a `-` that is not between two characters is literal. -/
def charInSet (c : Char) : List Char → Bool
  | a :: '-' :: b :: rest => (a ≤ c && c ≤ b) || charInSet c rest
  | a :: rest => c == a || charInSet c rest
  | [] => false

/-- Scan for the closing `]` of a glob bracket expression, returning the
characters before it and the rest of the pattern, or `none` when there is
no closing `]`. -/
def scanBracket : List Char → Option (List Char × List Char)
  | [] => none
  | ']' :: rest => some ([], rest)
  | c :: rest =>
    match scanBracket rest with
    | none => none
    | some (ins, aft) => some (c :: ins, aft)

/-- Parse a glob bracket expression (the part after `[`), following Python's
`fnmatch.translate`: a leading `!` negates the set, and a `]` directly after
the optional `!` belongs to the set.  Returns the negation flag, the set
characters and the remaining pattern, or `none` when the bracket is unclosed
(in which case `[` is treated as a literal character). -/
def parseBracket : List Char → Option (Bool × List Char × List Char)
  | '!' :: ']' :: rest =>
    match scanBracket rest with
    | none => none
    | some (ins, aft) => some (true, ']' :: ins, aft)
  | '!' :: rest =>
    match scanBracket rest with
    | none => none
    | some (ins, aft) => some (true, ins, aft)
  | ']' :: rest =>
    match scanBracket rest with
    | none => none
    | some (ins, aft) => some (false, ']' :: ins, aft)
  | rest =>
    match scanBracket rest with
    | none => none
    | some (ins, aft) => some (false, ins, aft)

/-- Fueled shell-glob matcher: `globMatch fuel pattern input`.  `*` matches
any (possibly empty) sequence of characters, `?` any single character,
`[...]` a bracket set, and any other character itself. -/
def globMatch : Nat → List Char → List Char → Bool
  | 0, _, _ => false
  | _ + 1, [], s => s.isEmpty
  | fuel + 1, '*' :: ps, s =>
    globMatch fuel ps s ||
      (match s with
       | [] => false
       | _ :: cs => globMatch fuel ('*' :: ps) cs)
  | fuel + 1, '?' :: ps, s =>
    match s with
    | [] => false
    | _ :: cs => globMatch fuel ps cs
  | fuel + 1, '[' :: ps, s =>
    match parseBracket ps with
    | some (neg, set, rest) =>
      match s with
      | [] => false
      | c :: cs => (charInSet c set != neg) && globMatch fuel rest cs
    | none =>
      match s with
      | [] => false
      | c :: cs => (c == '[') && globMatch fuel ps cs
  | fuel + 1, p :: ps, s =>
    match s with
    | [] => false
    | c :: cs => (c == p) && globMatch fuel ps cs

/-- Model of Python's `fnmatch.fnmatch name pattern` used at
`watch_and_upload.py:506` and `watch_and_upload.py:510`. -/
def fnmatch (name pattern : String) : Bool :=
  globMatch (pattern.length + name.length + 1) pattern.toList name.toList

/-- Model of Python's `pattern.rstrip('/*')` (`watch_and_upload.py:506`):
remove all trailing characters that are `/` or `*`. -/
def rstripSlashStar (p : String) : String :=
  String.mk ((p.toList.reverse.dropWhile (fun c => c == '/' || c == '*')).reverse)

/-- Model of Python's `str.startswith` (`watch_and_upload.py:500`), written
over character lists so that it is kernel-computable. -/
def strStartsWith (s p : String) : Bool := p.toList.isPrefixOf s.toList

/-- Model of Python's `str.endswith` (`watch_and_upload.py:500`), written
over character lists so that it is kernel-computable. -/
def strEndsWith (s p : String) : Bool := p.toList.isSuffixOf s.toList

/-- A filesystem path, as its list of segments; the platform separator is
abstracted to `"/"`. -/
abbrev Path := List String

/-- Model of `os.path.basename` (`watch_and_upload.py:495`): the last path
segment. -/
def basename (p : Path) : String := p.getLastD ""

/-- Model of `os.path.relpath p root` (`watch_and_upload.py:496` and
`watch_and_upload.py:536`) for the only case the watcher produces: `p` is a
path under the watched root, so the relative path is `p` with the root
prefix removed. -/
def relpath (root p : Path) : Path :=
  if root.isPrefixOf p then p.drop root.length else p

/-- One log event per `logging.info` / `logging.error` call site of the
Mirror Handler and Watch Supervisor:
`skipTemp` for `跳过临时文件` (line 501), `skipExcluded` for `跳过排除的文件`
(lines 507 and 511), `prepareCopy` for `文件已变化，准备复制到 WSL`
(line 531), `copySuccess` for `文件成功复制到 WSL` (line 544),
`copyError` for `复制文件到 WSL 时出错` (line 546, severity error),
`watchStarted` for `正在监听 ... 下的文件变化` (line 274). -/
inductive LogEvent where
  | skipTemp (path : Path)
  | skipExcluded (path : Path)
  | prepareCopy (path : Path)
  | copySuccess (dest : Path)
  | copyError (path : Path) (err : String)
  | watchStarted (root : Path)
deriving DecidableEq

/-- Severity of a log event: `copyError` is emitted with `logging.error`,
everything else with `logging.info`. -/
def LogEvent.isError : LogEvent → Bool
  | .copyError _ _ => true
  | _ => false

/-- One entry of `config["watch_dirs"]`: the keys `local` (source root),
`wsl` (destination root) and `exclude_patterns`. -/
structure WatchConfig where
  localRoot : Path
  wslRoot : Path
  exclude_patterns : List String
deriving DecidableEq

/-- The pattern loop of `should_process_file` (`watch_and_upload.py:504-513`):
for each pattern, first test every path segment against the pattern with all
trailing `/` and `*` characters stripped, then test the full relative path
against the unmodified pattern; the first match excludes the file (with one
log event), otherwise the next pattern is tried. -/
def patternScan (pathParts : List String) (relativePath : String) (filePath : Path) :
    List String → Bool × List LogEvent
  | [] => (true, [])
  | pat :: rest =>
    if pathParts.any (fun part => fnmatch part (rstripSlashStar pat)) then
      (false, [LogEvent.skipExcluded filePath])
    else if fnmatch relativePath pat then
      (false, [LogEvent.skipExcluded filePath])
    else
      patternScan pathParts relativePath filePath rest

/-- Model of `FileUploadHandler.should_process_file`
(`watch_and_upload.py:491-513`).  Returns the admit decision together with
the log events emitted.  The temporary-file check on the base name runs
before the pattern loop and short-circuits it. -/
def should_process_file (cfg : WatchConfig) (filePath : Path) : Bool × List LogEvent :=
  let fileName := basename filePath
  let relParts := relpath cfg.localRoot filePath
  let relativePath := String.intercalate "/" relParts
  if strEndsWith fileName "~" || strStartsWith fileName "." then
    (false, [LogEvent.skipTemp filePath])
  else
    patternScan relParts relativePath filePath cfg.exclude_patterns

/-- A regular file: its content together with its modification-time metadata,
the data `shutil.copy2` replicates. -/
structure File where
  content : List Nat
  mtime : Nat
deriving DecidableEq

/-- Filesystem state: a partial map from paths to files, and the set of
existing directories. -/
@[ext]
structure FS where
  files : Path → Option File
  dirs : Path → Bool

/-- Model of `os.makedirs d exist_ok:=True` (`watch_and_upload.py:540`):
create the directory and all of its ancestors, without error when any of
them already exists. -/
def makedirs (fs : FS) (d : Path) : FS :=
  { fs with dirs := fun x => fs.dirs x || x.isPrefixOf d }

/-- Model of `os.makedirs` on the destination's parent directory followed by
`shutil.copy2` (`watch_and_upload.py:540-543`): ensure the parents of `dest`
exist, then overwrite `dest` with the file read from `src` (content and
modification time). -/
def copyFile (fs : FS) (src dest : Path) : FS :=
  let fs1 := makedirs fs dest.dropLast
  { fs1 with files := fun p => if p = dest then fs.files src else fs1.files p }

/-- Model of `FileUploadHandler.copy_to_wsl` (`watch_and_upload.py:529-546`).
An informational log is emitted before anything else (line 531); if the
source path no longer exists nothing further happens; otherwise the copy is
attempted inside a `try` block whose possible exception is injected through
the `ioErr` oracle: on an exception the filesystem is left as it was and an
error is logged, on success the file is copied and a success log emitted. -/
def copy_to_wsl (cfg : WatchConfig) (filePath : Path) (fs : FS) (ioErr : Option String) :
    FS × List LogEvent :=
  if (fs.files filePath).isSome then
    match ioErr with
    | some e => (fs, [LogEvent.prepareCopy filePath, LogEvent.copyError filePath e])
    | none =>
      (copyFile fs filePath (cfg.wslRoot ++ relpath cfg.localRoot filePath),
        [LogEvent.prepareCopy filePath,
          LogEvent.copySuccess (cfg.wslRoot ++ relpath cfg.localRoot filePath)])
  else (fs, [LogEvent.prepareCopy filePath])

/-- A watchdog filesystem event: whether it concerns a directory, and the
source path it concerns. -/
structure FsEvent where
  is_directory : Bool
  src_path : Path
deriving DecidableEq

/-- Model of `FileUploadHandler.on_modified` (`watch_and_upload.py:515-520`):
directory events are ignored, otherwise the file is copied when
`should_process_file` admits it. -/
def on_modified (cfg : WatchConfig) (event : FsEvent) (fs : FS) (ioErr : Option String) :
    FS × List LogEvent :=
  if event.is_directory then (fs, [])
  else
    match should_process_file cfg event.src_path with
    | (true, logs) =>
      match copy_to_wsl cfg event.src_path fs ioErr with
      | (fs2, logs2) => (fs2, logs ++ logs2)
    | (false, logs) => (fs, logs)

/-- Model of `FileUploadHandler.on_created` (`watch_and_upload.py:522-527`):
directory events are ignored, otherwise the file is copied when
`should_process_file` admits it. -/
def on_created (cfg : WatchConfig) (event : FsEvent) (fs : FS) (ioErr : Option String) :
    FS × List LogEvent :=
  if event.is_directory then (fs, [])
  else
    match should_process_file cfg event.src_path with
    | (true, logs) =>
      match copy_to_wsl cfg event.src_path fs ioErr with
      | (fs2, logs2) => (fs2, logs ++ logs2)
    | (false, logs) => (fs, logs)

/-- A Watch Session processing its event stream in order: each event is
handled by the Mirror Handler (with its injected I/O outcome) and the next
event is then processed on the resulting filesystem. -/
def process_events (cfg : WatchConfig) : List (FsEvent × Option String) → FS → FS × List LogEvent
  | [], fs => (fs, [])
  | (ev, err) :: rest, fs =>
    match on_modified cfg ev fs err with
    | (fs1, l1) =>
      match process_events cfg rest fs1 with
      | (fs2, l2) => (fs2, l1 ++ l2)

/-- The loop body of `SyncApp.start_watching` (`watch_and_upload.py:268-274`).
For each target an observer is scheduled and started, appended to
`self.observers`, and a start log is emitted.  The source has no `try` /
`except` around the loop body, so when starting a target's watch raises
(modelled by `canWatch t = false`, e.g. a nonexistent source root) the
exception propagates: the result is `Except.error` carrying the observers
started so far and the logs emitted so far. -/
def start_watching_loop (canWatch : WatchConfig → Bool) :
    List WatchConfig → List WatchConfig → List LogEvent →
      Except (List WatchConfig × List LogEvent) (List WatchConfig × List LogEvent)
  | [], observers, logs => Except.ok (observers, logs)
  | t :: rest, observers, logs =>
    if canWatch t then
      start_watching_loop canWatch rest (observers ++ [t])
        (logs ++ [LogEvent.watchStarted t.localRoot])
    else
      Except.error (observers, logs)

/-- Model of `SyncApp.start_watching` (`watch_and_upload.py:260-274`), run
with the current observer list `observers` and the configured targets. -/
def start_watching (canWatch : WatchConfig → Bool) (observers : List WatchConfig)
    (targets : List WatchConfig) :
    Except (List WatchConfig × List LogEvent) (List WatchConfig × List LogEvent) :=
  start_watching_loop canWatch targets observers []

/-- The watch-related state of `SyncApp`: the `self.observers` list (one
entry per started Watch Session) and the `self.is_watching` flag. -/
structure AppState where
  observers : List WatchConfig
  is_watching : Bool
deriving DecidableEq

/-- Model of `SyncApp.toggle_watching` (`watch_and_upload.py:246-258`).
When not watching, `start_watching` runs and then the flag is flipped to
true; if `start_watching` raises, the flag-flip line never runs, so the flag
keeps its value while the observers started before the failure remain.
When watching, `stop_watching` stops and clears every observer and the flag
is flipped to false. -/
def toggle_watching (canWatch : WatchConfig → Bool) (targets : List WatchConfig)
    (s : AppState) : AppState :=
  if !s.is_watching then
    match start_watching canWatch s.observers targets with
    | Except.ok (obs, _) => { observers := obs, is_watching := true }
    | Except.error (obs, _) => { observers := obs, is_watching := s.is_watching }
  else
    { observers := [], is_watching := false }

/-- States of `SyncApp` reachable from the initial state (empty observer
list, not watching) by any sequence of `toggle_watching` calls (the tray
entries `start_monitoring` / `stop_monitoring` only call `toggle_watching`
conditionally, so they reach no further states). -/
inductive Reachable (canWatch : WatchConfig → Bool) (targets : List WatchConfig) :
    AppState → Prop
  | init : Reachable canWatch targets { observers := [], is_watching := false }
  | toggle (s : AppState) :
      Reachable canWatch targets s →
        Reachable canWatch targets (toggle_watching canWatch targets s)

/-- Specification-side pattern strip, following the spec text literally:
strip a trailing `/*` wildcard suffix, or else a trailing `/`, from the
pattern (to be compared with the source's `rstrip('/*')`). -/
def spec_strip (pat : String) : String :=
  if strEndsWith pat "/*" then String.mk (pat.toList.dropLast.dropLast)
  else if strEndsWith pat "/" then String.mk pat.toList.dropLast
  else pat

/-- Specification-side exclusion predicate, following the spec text
literally: some pattern matches the full relative path unmodified, or some
pattern, after `spec_strip`, matches at least one path segment. -/
def spec_matches (patterns : List String) (relParts : List String) : Bool :=
  patterns.any fun pat =>
    fnmatch (String.intercalate "/" relParts) pat ||
      relParts.any fun part => fnmatch part (spec_strip pat)

/-- A list compares as a prefix of itself followed by anything. -/
theorem isPrefixOf_append_self (r p : Path) : r.isPrefixOf (r ++ p) = true := by
  induction r with
  | nil => simp [List.isPrefixOf]
  | cons a as ih => simp [List.isPrefixOf, ih]

/-- Taking the path relative to `root` of a path directly under `root`
recovers the sub-path. -/
theorem relpath_append (r p : Path) : relpath r (r ++ p) = p := by
  simp [relpath, isPrefixOf_append_self, List.drop_left]

/-- The default value of `getLastD` is irrelevant on a nonempty list. -/
theorem getLastD_irrel {α : Type} (p : List α) (hp : p ≠ []) (d₁ d₂ : α) :
    p.getLastD d₁ = p.getLastD d₂ := by
  cases p with
  | nil => exact absurd rfl hp
  | cons b l => rw [List.getLastD_cons, List.getLastD_cons]

/-- The last element of an appended nonempty list is the last element of its
second part. -/
theorem getLastD_append {α : Type} (r p : List α) (d : α) (hp : p ≠ []) :
    (r ++ p).getLastD d = p.getLastD d := by
  induction r generalizing d with
  | nil => rfl
  | cons a as ih =>
    rw [List.cons_append, List.getLastD_cons, ih a, getLastD_irrel p hp a d]

/-- The base name of a path directly under a root is the base name of its
relative part. -/
theorem basename_append (r p : Path) (hp : p ≠ []) : basename (r ++ p) = basename p :=
  getLastD_append r p "" hp

/-- Decision of the pattern loop: the file passes iff no pattern matches a
path segment (after stripping trailing `/` and `*`) or the full relative
path. -/
theorem patternScan_fst (parts : List String) (relStr : String) (fp : Path)
    (pats : List String) :
    (patternScan parts relStr fp pats).1 =
      !(pats.any fun pat =>
        parts.any (fun part => fnmatch part (rstripSlashStar pat)) || fnmatch relStr pat) := by
  induction pats with
  | nil => rfl
  | cons pat rest ih =>
    simp only [patternScan, List.any_cons]
    split
    next h1 => simp [h1]
    next h1 =>
      split
      next h2 => simp [h1, h2]
      next h2 => simp [h1, h2, ih]

/-- Log output of the pattern loop: one exclusion event when some pattern
matches, nothing otherwise. -/
theorem patternScan_snd (parts : List String) (relStr : String) (fp : Path)
    (pats : List String) :
    (patternScan parts relStr fp pats).2 =
      (if pats.any (fun pat =>
          parts.any (fun part => fnmatch part (rstripSlashStar pat)) || fnmatch relStr pat)
        then [LogEvent.skipExcluded fp] else []) := by
  induction pats with
  | nil => rfl
  | cons pat rest ih =>
    simp only [patternScan, List.any_cons]
    split
    next h1 => simp [h1]
    next h1 =>
      split
      next h2 => simp [h1, h2]
      next h2 => simp [h1, h2, ih]

/-- Decision of `should_process_file`: the file passes iff its base name is
not a temp-file name and no exclusion pattern matches. -/
theorem should_process_file_fst (cfg : WatchConfig) (fp : Path) :
    (should_process_file cfg fp).1 =
      (!(strEndsWith (basename fp) "~" || strStartsWith (basename fp) ".") &&
        !(cfg.exclude_patterns.any fun pat =>
          (relpath cfg.localRoot fp).any (fun part => fnmatch part (rstripSlashStar pat)) ||
            fnmatch (String.intercalate "/" (relpath cfg.localRoot fp)) pat)) := by
  simp only [should_process_file]
  split
  next h => simp [h]
  next h => simp [h, patternScan_fst]

/-- A permutation of a list leaves `List.any` unchanged. -/
theorem perm_any {α : Type} {l₁ l₂ : List α} (f : α → Bool) (h : l₁.Perm l₂) :
    l₁.any f = l₂.any f := by
  cases hb : l₂.any f
  · cases hc : l₁.any f
    · rfl
    · rw [List.any_eq_true] at hc
      obtain ⟨x, hx, hfx⟩ := hc
      rw [Bool.eq_false_iff] at hb
      exact absurd (List.any_eq_true.mpr ⟨x, h.mem_iff.mp hx, hfx⟩) hb
  · rw [List.any_eq_true] at hb ⊢
    obtain ⟨x, hx, hfx⟩ := hb
    exact ⟨x, h.mem_iff.mpr hx, hfx⟩

/-- Growing a list can only grow the set of `List.any` successes. -/
theorem sublist_any {α : Type} {l₁ l₂ : List α} (f : α → Bool) (h : l₁.Sublist l₂)
    (ha : l₁.any f = true) : l₂.any f = true := by
  rw [List.any_eq_true] at ha ⊢
  obtain ⟨x, hx, hfx⟩ := ha
  exact ⟨x, h.subset hx, hfx⟩

/-- C1 counterexample.  With pattern list `["build*"]` and relative path
`a/buildx`, the spec-side matcher excludes the file (after stripping a
trailing `/*` or `/` suffix the pattern is still `build*`, which
glob-matches the segment `buildx`), but the code admits it, because
`rstrip('/*')` strips the bare trailing `*` as well, leaving `build`, which
matches no segment, and `build*` does not match the full path `a/buildx`.
Conversely, with the empty pattern list the file `.hidden` matches no
pattern at all yet is excluded by the temp-file check, refuting the claim's
"if neither test succeeds for any pattern, the file is admitted". -/
theorem C1_counterexample :
    ((should_process_file ⟨["src"], ["dst"], ["build*"]⟩ ["src", "a", "buildx"]).1 = true ∧
      spec_matches ["build*"] ["a", "buildx"] = true) ∧
    ((should_process_file ⟨["src"], ["dst"], []⟩ ["src", ".hidden"]).1 = false ∧
      spec_matches [] [".hidden"] = false) := by
  decide

/-- C1 (amended): for every relative path `p` whose base name is not a
temp-file name (does not end with `~` and does not start with `.`) and
every pattern list, the Pattern Matcher excludes `p` iff some pattern
matches the full relative path unmodified per shell-glob semantics, or some
pattern, after stripping all trailing `/` and `*` characters (Python
`rstrip('/*')` semantics), matches at least one individual path segment of
`p` per shell-glob semantics. -/
theorem C1_amended_exclusion_characterization (root dst : Path) (pats : List String)
    (p : List String) (hp : p ≠ [])
    (ht : strEndsWith (basename p) "~" = false ∧ strStartsWith (basename p) "." = false) :
    (should_process_file ⟨root, dst, pats⟩ (root ++ p)).1 = false ↔
      ∃ pat ∈ pats,
        fnmatch (String.intercalate "/" p) pat = true ∨
          ∃ part ∈ p, fnmatch part (rstripSlashStar pat) = true := by
  have h1 : (should_process_file ⟨root, dst, pats⟩ (root ++ p)).1 = false ↔
      (pats.any fun pat =>
        p.any (fun part => fnmatch part (rstripSlashStar pat)) ||
          fnmatch (String.intercalate "/" p) pat) = true := by
    rw [should_process_file_fst]
    show (!(strEndsWith (basename (root ++ p)) "~" || strStartsWith (basename (root ++ p)) ".") &&
        !(pats.any fun pat =>
          (relpath root (root ++ p)).any (fun part => fnmatch part (rstripSlashStar pat)) ||
            fnmatch (String.intercalate "/" (relpath root (root ++ p))) pat)) = false ↔ _
    rw [basename_append root p hp, relpath_append, ht.1, ht.2]
    simp
  rw [h1, List.any_eq_true]
  refine exists_congr fun pat => and_congr_right fun _ => ?_
  rw [Bool.or_eq_true, List.any_eq_true]
  exact or_comm

/-- Witness for C1 (amended): with pattern `build` the file `build/f.txt`
is excluded because the segment `build` matches. -/
theorem C1_amended_witness :
    (should_process_file ⟨["src"], ["dst"], ["build"]⟩ (["src"] ++ ["build", "f.txt"])).1 = false :=
  (C1_amended_exclusion_characterization ["src"] ["dst"] ["build"] ["build", "f.txt"]
    (by decide) ⟨by decide, by decide⟩).mpr
    ⟨"build", by decide, Or.inr ⟨"build", by decide, by decide⟩⟩

/-- C2: every file whose base name starts with `.` or ends with `~` is
rejected by `should_process_file` for every pattern list, with a single
skipped-temp log event, and the check short-circuits pattern evaluation:
the whole result is independent of the pattern list. -/
theorem C2_temp_files_always_rejected (root dst : Path) (pats : List String) (filePath : Path)
    (h : strStartsWith (basename filePath) "." = true ∨
      strEndsWith (basename filePath) "~" = true) :
    (should_process_file ⟨root, dst, pats⟩ filePath).1 = false ∧
    should_process_file ⟨root, dst, pats⟩ filePath = (false, [LogEvent.skipTemp filePath]) ∧
    ∀ pats2 : List String,
      should_process_file ⟨root, dst, pats2⟩ filePath =
        should_process_file ⟨root, dst, pats⟩ filePath := by
  have hcond : (strEndsWith (basename filePath) "~" ||
      strStartsWith (basename filePath) ".") = true := by
    rcases h with h | h
    · simp [h]
    · simp [h]
  refine ⟨?_, ?_, fun pats2 => ?_⟩ <;> simp [should_process_file, hcond]

/-- Witness for C2: the dotfile `.git` is rejected even though the pattern
list `["*.tmp"]` does not match it. -/
theorem C2_witness :
    (should_process_file ⟨["src"], ["dst"], ["*.tmp"]⟩ ["src", ".git"]).1 = false :=
  (C2_temp_files_always_rejected ["src"] ["dst"] ["*.tmp"] ["src", ".git"]
    (Or.inl (by decide))).1

/-- C8: the admit/exclude decision of `should_process_file` is invariant
under permutation of the pattern list. -/
theorem C8_pattern_order_irrelevant (root dst : Path) (pats pats2 : List String)
    (filePath : Path) (h : pats.Perm pats2) :
    (should_process_file ⟨root, dst, pats⟩ filePath).1 =
      (should_process_file ⟨root, dst, pats2⟩ filePath).1 := by
  rw [should_process_file_fst, should_process_file_fst]
  show (_ && !(pats.any _)) = (_ && !(pats2.any _))
  rw [perm_any _ h]

/-- Witness for C8: swapping two patterns leaves the decision unchanged. -/
theorem C8_witness :
    (should_process_file ⟨["s"], ["d"], ["a", "b"]⟩ ["s", "x"]).1 =
      (should_process_file ⟨["s"], ["d"], ["b", "a"]⟩ ["s", "x"]).1 :=
  C8_pattern_order_irrelevant ["s"] ["d"] ["a", "b"] ["b", "a"] ["s", "x"] (by decide)

/-- C10: exclusion is monotone in the pattern list: if `should_process_file`
rejects a path under a pattern list, it also rejects it under any superlist
(in the sublist order). -/
theorem C10_exclusion_monotone (root dst : Path) (pats pats2 : List String) (filePath : Path)
    (hsub : pats.Sublist pats2)
    (hex : (should_process_file ⟨root, dst, pats⟩ filePath).1 = false) :
    (should_process_file ⟨root, dst, pats2⟩ filePath).1 = false := by
  rw [should_process_file_fst] at hex ⊢
  cases htemp : (strEndsWith (basename filePath) "~" || strStartsWith (basename filePath) ".") with
  | true => simp [htemp]
  | false =>
    rw [htemp] at hex
    simp only [Bool.not_false, Bool.true_and, Bool.not_eq_false'] at hex ⊢
    exact sublist_any _ hsub hex

/-- Witness for C10: a temp file rejected under the empty pattern list is
still rejected after adding a pattern. -/
theorem C10_witness :
    (should_process_file ⟨["s"], ["d"], ["x"]⟩ ["s", "n.txt~"]).1 = false :=
  C10_exclusion_monotone ["s"] ["d"] [] ["x"] ["s", "n.txt~"]
    (List.nil_sublist _) (by decide)

/-- Copying does not change the file stored at the source path. -/
theorem copyFile_files_src (fs : FS) (src dest : Path) :
    (copyFile fs src dest).files src = fs.files src := by
  simp only [copyFile, makedirs]
  split <;> simp_all

/-- Copying twice from the same source to the same destination is the same
as copying once. -/
theorem copyFile_idem (fs : FS) (src dest : Path) :
    copyFile (copyFile fs src dest) src dest = copyFile fs src dest := by
  apply FS.ext
  · funext q
    by_cases h : q = dest
    · subst h
      simp [copyFile, makedirs]
    · simp [copyFile, makedirs, h]
  · funext d
    simp only [copyFile, makedirs]
    rw [Bool.or_assoc, Bool.or_self]

/-- Number of log events of one copy attempt: two when the source still
exists (preparation plus success or error), one otherwise (preparation
only). -/
theorem copy_to_wsl_logs_length (cfg : WatchConfig) (fp : Path) (fs : FS)
    (ioErr : Option String) :
    (copy_to_wsl cfg fp fs ioErr).2.length =
      (if (fs.files fp).isSome = true then 2 else 1) := by
  simp only [copy_to_wsl]
  split
  next h => cases ioErr <;> simp [h]
  next h => simp [h]

/-- Number of log events of the admission test: none when the file is
admitted, exactly one (skipped-temp or skipped-excluded) when it is
rejected. -/
theorem should_process_file_logs_length (cfg : WatchConfig) (fp : Path) :
    (should_process_file cfg fp).2.length =
      (if (should_process_file cfg fp).1 = true then 0 else 1) := by
  simp only [should_process_file]
  split
  next h => simp
  next h =>
    rw [patternScan_snd, patternScan_fst]
    split
    next h2 => simp [h2]
    next h2 => simp [h2]

/-- Processing an event stream handles the first event and then processes
the remaining events on the resulting filesystem, concatenating the logs. -/
theorem process_events_cons (cfg : WatchConfig) (ev : FsEvent) (err : Option String)
    (rest : List (FsEvent × Option String)) (fs : FS) :
    process_events cfg ((ev, err) :: rest) fs =
      ((process_events cfg rest (on_modified cfg ev fs err).1).1,
        (on_modified cfg ev fs err).2 ++
          (process_events cfg rest (on_modified cfg ev fs err).1).2) := by
  simp only [process_events]

/-- C3: for every admitted file at source-root-relative path `p` present in
the filesystem, the copy action writes the file (content and
modification-time metadata) to `destinationRoot ++ p`, overwriting whatever
was there; every parent directory of the destination exists afterwards
(created recursively, without error when already present); and repeating
the copy changes nothing (idempotence, logs included). -/
theorem C3_copy_mirrors_structure_and_is_idempotent (root dst : Path) (pats : List String)
    (p : Path) (f : File) (fs : FS) (hsrc : fs.files (root ++ p) = some f) :
    ((copy_to_wsl ⟨root, dst, pats⟩ (root ++ p) fs none).1.files (dst ++ p) = some f) ∧
    (∀ d : Path, d.isPrefixOf ((dst ++ p).dropLast) = true →
      (copy_to_wsl ⟨root, dst, pats⟩ (root ++ p) fs none).1.dirs d = true) ∧
    copy_to_wsl ⟨root, dst, pats⟩ (root ++ p)
        (copy_to_wsl ⟨root, dst, pats⟩ (root ++ p) fs none).1 none =
      copy_to_wsl ⟨root, dst, pats⟩ (root ++ p) fs none := by
  have hsome : (fs.files (root ++ p)).isSome = true := by rw [hsrc]; rfl
  have hcopy : copy_to_wsl ⟨root, dst, pats⟩ (root ++ p) fs none =
      (copyFile fs (root ++ p) (dst ++ p),
        [LogEvent.prepareCopy (root ++ p), LogEvent.copySuccess (dst ++ p)]) := by
    simp only [copy_to_wsl, hsome, if_pos, relpath_append]
  rw [hcopy]
  refine ⟨?_, ?_, ?_⟩
  · simp [copyFile, makedirs, hsrc]
  · intro d hd
    simp [copyFile, makedirs, hd]
  · have hsome2 : ((copyFile fs (root ++ p) (dst ++ p)).files (root ++ p)).isSome = true := by
      rw [copyFile_files_src, hsrc]; rfl
    simp only [copy_to_wsl, hsome2, if_pos, relpath_append, copyFile_idem]

/-- Concrete filesystem for the C3 witness: one source file, nothing else. -/
def fsC3 : FS :=
  { files := fun q => if q = ["src", "a", "b.txt"] then some ⟨[1], 5⟩ else none,
    dirs := fun _ => false }

/-- Witness for C3: copying `a/b.txt` from `src` lands the file, with its
content and modification time, at `dst/a/b.txt`. -/
theorem C3_witness :
    (copy_to_wsl ⟨["src"], ["dst"], []⟩ (["src"] ++ ["a", "b.txt"]) fsC3 none).1.files
        (["dst"] ++ ["a", "b.txt"]) = some ⟨[1], 5⟩ :=
  (C3_copy_mirrors_structure_and_is_idempotent ["src"] ["dst"] [] ["a", "b.txt"]
    ⟨[1], 5⟩ fsC3 rfl).1

/-- C5: file-level failures are contained in the Mirror Handler.  If the
source no longer exists when the copy is attempted, the copy is a non-fatal
skip: the filesystem is unchanged and only the informational preparation
log is emitted, no error-severity event.  Any other I/O failure (the
injected exception `e`) is caught: the filesystem is as before the attempt
and the failure is logged as an error.  In either case the handler returns
normally, so the Watch Session goes on to process all subsequent events. -/
theorem C5_errors_contained (root dst : Path) (pats : List String) (filePath : Path)
    (fs : FS) (e : String) (ioErr : Option String) (ev : FsEvent)
    (rest : List (FsEvent × Option String)) :
    (fs.files filePath = none →
      copy_to_wsl ⟨root, dst, pats⟩ filePath fs ioErr = (fs, [LogEvent.prepareCopy filePath]) ∧
        ∀ l ∈ (copy_to_wsl ⟨root, dst, pats⟩ filePath fs ioErr).2, l.isError = false) ∧
    ((fs.files filePath).isSome = true →
      copy_to_wsl ⟨root, dst, pats⟩ filePath fs (some e) =
        (fs, [LogEvent.prepareCopy filePath, LogEvent.copyError filePath e])) ∧
    process_events ⟨root, dst, pats⟩ ((ev, ioErr) :: rest) fs =
      ((process_events ⟨root, dst, pats⟩ rest (on_modified ⟨root, dst, pats⟩ ev fs ioErr).1).1,
        (on_modified ⟨root, dst, pats⟩ ev fs ioErr).2 ++
          (process_events ⟨root, dst, pats⟩ rest
            (on_modified ⟨root, dst, pats⟩ ev fs ioErr).1).2) := by
  refine ⟨fun hnone => ?_, fun hsome => ?_, process_events_cons _ _ _ _ _⟩
  · have hs : (fs.files filePath).isSome = false := by rw [hnone]; rfl
    have hc : copy_to_wsl ⟨root, dst, pats⟩ filePath fs ioErr =
        (fs, [LogEvent.prepareCopy filePath]) := by
      simp [copy_to_wsl, hs]
    refine ⟨hc, ?_⟩
    rw [hc]
    intro l hl
    rw [List.mem_singleton] at hl
    subst hl
    rfl
  · simp [copy_to_wsl, hsome]

/-- Concrete filesystem for the C5 witness: completely empty. -/
def fsC5 : FS := { files := fun _ => none, dirs := fun _ => false }

/-- Witness for C5: on the empty filesystem the copy of a vanished source is
a non-fatal skip that leaves the state unchanged. -/
theorem C5_witness :
    copy_to_wsl ⟨["src"], ["dst"], []⟩ ["src", "x"] fsC5 none =
      (fsC5, [LogEvent.prepareCopy ["src", "x"]]) :=
  ((C5_errors_contained ["src"] ["dst"] [] ["src", "x"] fsC5 "disk full" none
      ⟨false, ["src", "x"]⟩ []).1 rfl).1

/-- Number of log events emitted for one non-directory event: two when the
file is admitted and the source still exists (the preparation log plus the
success or error log), one otherwise (the single skip or preparation
log). -/
theorem on_modified_logs_length (cfg : WatchConfig) (ev : FsEvent) (fs : FS)
    (ioErr : Option String) (hd : ev.is_directory = false) :
    (on_modified cfg ev fs ioErr).2.length =
      (if (should_process_file cfg ev.src_path).1 = true then
        (if (fs.files ev.src_path).isSome = true then 2 else 1)
      else 1) := by
  have hlen := should_process_file_logs_length cfg ev.src_path
  cases hspf : should_process_file cfg ev.src_path with
  | mk b logs =>
    rw [hspf] at hlen
    cases b with
    | false =>
      simp only [on_modified, hd, Bool.false_eq_true, if_false, hspf]
      simp only at hlen ⊢
      simp at hlen
      simp [hlen]
    | true =>
      simp only [on_modified, hd, Bool.false_eq_true, if_false, hspf]
      cases hc : copy_to_wsl cfg ev.src_path fs ioErr with
      | mk fs2 l2 =>
        have hclen := copy_to_wsl_logs_length cfg ev.src_path fs ioErr
        rw [hc] at hclen
        simp only at hlen
        simp at hlen
        subst hlen
        simp [hclen]

/-- C6 counterexample: a successfully copied file produces two log events
(the preparation notice of `copy_to_wsl` line 531 and the success notice of
line 544), not exactly one as the claim states. -/
theorem C6_counterexample :
    (on_modified ⟨["src"], ["dst"], []⟩ ⟨false, ["src", "f.txt"]⟩
        ⟨fun q => if q = ["src", "f.txt"] then some ⟨[0], 0⟩ else none, fun _ => false⟩ none).2 =
      [LogEvent.prepareCopy ["src", "f.txt"], LogEvent.copySuccess ["dst", "f.txt"]] ∧
    (on_modified ⟨["src"], ["dst"], []⟩ ⟨false, ["src", "f.txt"]⟩
        ⟨fun q => if q = ["src", "f.txt"] then some ⟨[0], 0⟩ else none, fun _ => false⟩ none).2.length ≠ 1 := by
  constructor
  · rfl
  · decide

/-- C6 (amended): every non-directory event processed by the Mirror Handler
emits at least one and at most two log events — no outcome is silent; the
copied and copy-failed outcomes (file admitted and source still present)
emit exactly two (a preparatory notice plus the outcome event), while every
skip outcome emits exactly one. -/
theorem C6_amended_log_events_per_outcome (root dst : Path) (pats : List String)
    (ev : FsEvent) (fs : FS) (ioErr : Option String) (hd : ev.is_directory = false) :
    1 ≤ (on_modified ⟨root, dst, pats⟩ ev fs ioErr).2.length ∧
    (on_modified ⟨root, dst, pats⟩ ev fs ioErr).2.length ≤ 2 ∧
    ((on_modified ⟨root, dst, pats⟩ ev fs ioErr).2.length = 2 ↔
      ((should_process_file ⟨root, dst, pats⟩ ev.src_path).1 = true ∧
        (fs.files ev.src_path).isSome = true)) := by
  rw [on_modified_logs_length ⟨root, dst, pats⟩ ev fs ioErr hd]
  split
  next h1 =>
    split
    next h2 => simp [h1, h2]
    next h2 => simp [h1, h2]
  next h1 => simp [h1]

/-- Witness for C6 (amended): a skipped temp file emits at least one log
event. -/
theorem C6_amended_witness :
    1 ≤ (on_modified ⟨["src"], ["dst"], []⟩ ⟨false, ["src", ".x"]⟩
        ⟨fun _ => none, fun _ => false⟩ none).2.length :=
  (C6_amended_log_events_per_outcome ["src"] ["dst"] [] ⟨false, ["src", ".x"]⟩
    ⟨fun _ => none, fun _ => false⟩ none rfl).1

/-- C9: the handler reacts to created and modified events identically:
`on_created` and `on_modified` are the same function (same directory-event
guard, same admission test, same copy action). -/
theorem C9_on_created_eq_on_modified : on_created = on_modified := rfl

/-- When every target before a bad one can be watched, the start loop stops
exactly at the bad target: the earlier targets were started and logged, the
bad and later ones were not, and the exception carries out of the loop. -/
theorem start_watching_loop_stops (canWatch : WatchConfig → Bool) (t : WatchConfig)
    (post : List WatchConfig) (ht : canWatch t = false) :
    ∀ (pre observers : List WatchConfig) (logs : List LogEvent),
      (∀ u ∈ pre, canWatch u = true) →
      start_watching_loop canWatch (pre ++ t :: post) observers logs =
        Except.error (observers ++ pre,
          logs ++ pre.map fun u => LogEvent.watchStarted u.localRoot) := by
  intro pre
  induction pre with
  | nil =>
    intro obs logs _
    simp [start_watching_loop, ht]
  | cons u us ih =>
    intro obs logs hpre
    have hu : canWatch u = true := hpre u (List.mem_cons_self u us)
    have hstep : start_watching_loop canWatch ((u :: us) ++ t :: post) obs logs =
        start_watching_loop canWatch (us ++ t :: post) (obs ++ [u])
          (logs ++ [LogEvent.watchStarted u.localRoot]) := by
      simp [start_watching_loop, hu]
    rw [hstep, ih (obs ++ [u]) (logs ++ [LogEvent.watchStarted u.localRoot])
      (fun v hv => hpre v (List.mem_cons_of_mem u hv))]
    simp

/-- When every target can be watched, the start loop succeeds, appending all
targets to the observer list and logging one start event per target. -/
theorem start_watching_loop_all_ok (canWatch : WatchConfig → Bool) :
    ∀ (targets observers : List WatchConfig) (logs : List LogEvent),
      (∀ u ∈ targets, canWatch u = true) →
      start_watching_loop canWatch targets observers logs =
        Except.ok (observers ++ targets,
          logs ++ targets.map fun u => LogEvent.watchStarted u.localRoot) := by
  intro targets
  induction targets with
  | nil =>
    intro obs logs _
    simp [start_watching_loop]
  | cons u us ih =>
    intro obs logs hall
    have hu : canWatch u = true := hall u (List.mem_cons_self u us)
    have hstep : start_watching_loop canWatch (u :: us) obs logs =
        start_watching_loop canWatch us (obs ++ [u])
          (logs ++ [LogEvent.watchStarted u.localRoot]) := by
      simp [start_watching_loop, hu]
    rw [hstep, ih (obs ++ [u]) (logs ++ [LogEvent.watchStarted u.localRoot])
      (fun v hv => hall v (List.mem_cons_of_mem u hv))]
    simp

/-- Target whose source root cannot be watched, for the C4 theorems. -/
def badTargetC4 : WatchConfig := ⟨["missing"], ["d1"], []⟩

/-- Healthy target for the C4 theorems. -/
def goodTargetC4 : WatchConfig := ⟨["ok"], ["d2"], []⟩

/-- Watchability oracle for the C4 theorems: only the root `missing` cannot
be watched. -/
def canWatchC4 : WatchConfig → Bool := fun c => c.localRoot != ["missing"]

/-- C4 counterexample: starting a bad target followed by a good one raises
at the bad target (the source has no per-target exception handling in the
`start_watching` loop), so the good target is never started and no
watch-start-failed event is logged — not the claimed partial success. -/
theorem C4_counterexample :
    start_watching canWatchC4 [] [badTargetC4, goodTargetC4] = Except.error ([], []) := rfl

/-- C4 (amended): when one target's watch cannot be started, the exception
propagates out of `start_watching`: the targets before it are started and
logged, the failed target and all targets after it are not started, and no
failure event is logged for the failed target. -/
theorem C4_amended_start_aborts_at_first_bad_target (canWatch : WatchConfig → Bool)
    (pre : List WatchConfig) (t : WatchConfig) (post : List WatchConfig)
    (observers : List WatchConfig)
    (hpre : ∀ u ∈ pre, canWatch u = true) (ht : canWatch t = false) :
    start_watching canWatch observers (pre ++ t :: post) =
      Except.error (observers ++ pre,
        pre.map fun u => LogEvent.watchStarted u.localRoot) := by
  have h := start_watching_loop_stops canWatch t post ht pre observers [] hpre
  simpa [start_watching] using h

/-- Witness for C4 (amended): a good target before the bad one is started;
the loop then stops at the bad target. -/
theorem C4_amended_witness :
    start_watching canWatchC4 [] ([goodTargetC4] ++ badTargetC4 :: []) =
      Except.error ([] ++ [goodTargetC4],
        [goodTargetC4].map fun u => LogEvent.watchStarted u.localRoot) :=
  C4_amended_start_aborts_at_first_bad_target canWatchC4 [goodTargetC4] badTargetC4 [] []
    (by decide) (by decide)

/-- C7 counterexample: with an empty configured target list (the shipped
default configuration `{"watch_dirs": []}`), a single `toggle_watching`
call reaches the state where `is_watching` is true while the observer list
is empty — no Watch Session is active, refuting the claimed iff. -/
theorem C7_counterexample :
    Reachable (fun _ => true) [] { observers := [], is_watching := true } ∧
    ({ observers := [], is_watching := true } : AppState).is_watching = true ∧
    ({ observers := [], is_watching := true } : AppState).observers = [] := by
  refine ⟨?_, rfl, rfl⟩
  have h0 : Reachable (fun _ => true) [] { observers := [], is_watching := false } :=
    Reachable.init
  have h1 := Reachable.toggle _ h0
  have e : toggle_watching (fun _ => true) [] { observers := [], is_watching := false } =
      { observers := [], is_watching := true } := rfl
  rw [e] at h1
  exact h1

/-- C7 (amended): provided the configured target list is nonempty and every
target can be watched, in every reachable state of the app the
`is_watching` flag is true iff at least one Watch Session (observer) is
active. -/
theorem C7_amended_iswatching_iff_active_sessions (canWatch : WatchConfig → Bool)
    (targets : List WatchConfig) (hne : targets ≠ [])
    (hall : ∀ t ∈ targets, canWatch t = true)
    (s : AppState) (hr : Reachable canWatch targets s) :
    s.is_watching = true ↔ s.observers ≠ [] := by
  induction hr with
  | init => simp
  | toggle s hr ih =>
    cases hw : s.is_watching with
    | true =>
      have hstop : toggle_watching canWatch targets s =
          { observers := [], is_watching := false } := by
        simp [toggle_watching, hw]
      rw [hstop]
      simp
    | false =>
      have hobs : s.observers = [] := by
        by_contra hne2
        have hcontra := ih.mpr hne2
        rw [hw] at hcontra
        exact Bool.false_ne_true hcontra
      have hstart := start_watching_loop_all_ok canWatch targets s.observers [] hall
      have hgo : toggle_watching canWatch targets s =
          { observers := s.observers ++ targets, is_watching := true } := by
        simp [toggle_watching, hw, start_watching, hstart]
      rw [hgo, hobs]
      simpa using hne

/-- Witness for C7 (amended): the initial state of an app with one valid
target satisfies the iff (both sides false). -/
theorem C7_amended_witness :
    (({ observers := [], is_watching := false } : AppState).is_watching = true ↔
      ({ observers := [], is_watching := false } : AppState).observers ≠ []) :=
  C7_amended_iswatching_iff_active_sessions (fun _ => true) [⟨["a"], ["b"], []⟩]
    (by decide) (by decide) _ Reachable.init

end WatchAndUpload
